import Mathlib

/-
Shallow embedding of `src/tartufo/cli.py` (the `main` click command).

The file `cli.py` is the only source file of the repository that is present;
the modules it calls (`tartufo.config`, `tartufo.scanner`, `tartufo.util`,
`truffleHogRegexes.regexChecks`) are external collaborators here and are
modelled as an abstract environment `Env`:
  * `config.configure_regexes_from_args` is modelled by its outcome
    (`ConfigureOutcome`): a rules mapping, a raised `ValueError` (which
    `main` catches), or any other raised exception (which propagates and
    crashes the process);
  * `re.compile` is modelled by a predicate `re_compile : String → Bool`
    saying whether a pattern string compiles; a `False` means `re.error`
    is raised, which `main` does not catch (the process crashes).  A
    compiled pattern object is represented by its source string;
  * `scanner.find_staged` / `scanner.find_strings` are modelled as total
    functions from their argument records to the returned output mapping.

`main` itself is embedded as a function from the parsed options (`Kwargs`)
and the environment to a `MainResult`: the ordered trace of observable
events (echoes, error messages, scanner invocations, cleanup, result-path
printing) together with the process outcome (`ctx.exit code`, or a crash
from an uncaught exception; a Python process that dies on an uncaught
exception terminates with a non-zero status).
-/

set_option autoImplicit false

namespace Tartufo

/-- Membership predicate of the character class stripped by Python's
`str.lstrip()` for ASCII input (space, tab, newline, carriage return,
vertical tab, form feed). -/
def pyIsSpace (c : Char) : Bool :=
  c = ' ' || c = '\t' || c = '\n' || c = '\r' || c = '\x0b' || c = '\x0c'

/-- Python `s.lstrip()`: drop leading whitespace characters. -/
def pyLstrip (s : String) : String :=
  String.mk (s.data.dropWhile pyIsSpace)

/-- Python `l[:-1]`: drop the last character of the string (the empty
string stays empty).  Note the drop is unconditional — it is not a
newline strip. -/
def pyDropLast (s : String) : String :=
  String.mk s.data.dropLast

/-- Python truthiness of `str.startswith("#")`. -/
def startsWithHash (s : String) : Bool :=
  match s.data with
  | [] => false
  | c :: _ => c = '#'

/-- Processing applied by `main` to each line of an include-paths or
exclude-paths file before deduplication: `l[:-1].lstrip()`
(cli.py lines 85 and 89). -/
def processLine (l : String) : String :=
  pyLstrip (pyDropLast l)

/-- Pattern strings on which `re.compile` is invoked for a pattern file
with the given lines: the processed lines are deduplicated by the Python
`set(...)` comprehension, and a processed line survives the loop body
filter iff it is non-empty and does not start with `#`
(cli.py lines 84 to 91).  Python set iteration order is unspecified; the
model fixes the order produced by `List.dedup`, which is irrelevant to
the claims (they concern membership and multiplicity only). -/
def effectivePatterns (lines : List String) : List String :=
  ((lines.map processLine).dedup).filter fun p => !p.isEmpty && !startsWithHash p

/-- Rules mapping returned by `config.configure_regexes_from_args`: rule
name paired with the (source of the) compiled pattern.  Python
truthiness of the dict (`not rules_regexes`) is emptiness of the list. -/
def Rules : Type := List (String × String)

instance : DecidableEq Rules := by
  unfold Rules
  infer_instance

/-- Outcome of the external call
`config.configure_regexes_from_args(kwargs, truffleHogRegexes.regexChecks.regexes)`
(cli.py lines 70 to 73); the module `tartufo.config` is not part of the
given sources.  `valueError` is caught by `main` (lines 74 to 76); any
other exception propagates uncaught. -/
inductive ConfigureOutcome : Type where
  | ok (rules_regexes : Rules)
  | valueError (msg : String)
  | otherError
deriving DecidableEq

/-- Parsed command-line options of the `tartufo` command, in the order of
the `click.option` declarations; `git_url` is the positional argument.
`include_paths` and `exclude_paths` are open file handles, modelled as
the list of lines iteration yields (each line keeps its trailing newline
character except possibly the last); `none` models the option being
absent (`None`).  `repo_path` and `git_url` are `none` when absent, and
Python truthiness of a present string is its non-emptiness. -/
structure Kwargs : Type where
  json : Bool
  default_regexes : Bool
  entropy : Bool
  regex : Bool
  since_commit : Option String
  max_depth : Nat
  branch : Option String
  include_paths : Option (List String)
  exclude_paths : Option (List String)
  repo_path : Option String
  cleanup : Bool
  pre_commit : Bool
  git_url : Option String
deriving DecidableEq

/-- Python truthiness of an optional string value (`None` and the empty
string are falsy). -/
def truthy : Option String → Bool
  | none => false
  | some s => !s.isEmpty

/-- Mapping returned by `scanner.find_staged` / `scanner.find_strings`,
restricted to the keys `main` reads: `output.get("found_issues", False)`
and `output.get("issues_path", None)`.  A missing key is `none`. -/
structure Output : Type where
  found_issues : Option Bool
  issues_path : Option String
deriving DecidableEq

/-- Arguments of the call `scanner.find_staged(...)` (cli.py lines 94 to
103); `suppress_output` is the constant `False` and is omitted. -/
structure FindStagedArgs : Type where
  repo_path : Option String
  json : Bool
  regex : Bool
  entropy : Bool
  custom_regexes : Rules
  path_inclusions : List String
  path_exclusions : List String
deriving DecidableEq

/-- Arguments of the call `scanner.find_strings(...)` (cli.py lines 105
to 118); `suppress_output` is the constant `False` and is omitted. -/
structure FindStringsArgs : Type where
  git_url : Option String
  since_commit : Option String
  max_depth : Nat
  json : Bool
  regex : Bool
  entropy : Bool
  custom_regexes : Rules
  branch : Option String
  repo_path : Option String
  path_inclusions : List String
  path_exclusions : List String
deriving DecidableEq

/-- Abstract behaviour, for one invocation, of the external collaborators
`main` calls: the result of `configure_regexes_from_args`, which pattern
strings `re.compile` accepts, and the outputs of the two scanner entry
points as functions of the arguments `main` passes them. -/
structure Env : Type where
  configure_result : ConfigureOutcome
  re_compile : String → Bool
  find_staged : FindStagedArgs → Output
  find_strings : FindStringsArgs → Output

/-- Observable events of one run of `main`, in program order:
`click.echo(dir(ctx))`, `click.echo(kwargs)`, an `err(...)` message on
stderr, a scanner entry-point invocation with its arguments, the
`util.clean_outputs(output)` call, and the results-saved print. -/
inductive Event : Type where
  | echoDir
  | echoKwargs (k : Kwargs)
  | errEcho (msg : String)
  | callFindStaged (a : FindStagedArgs)
  | callFindStrings (a : FindStringsArgs)
  | cleanOutputs (o : Output)
  | printResultsSaved (p : String)
deriving DecidableEq

/-- Process outcome: `ctx.exit code`, or termination by an uncaught
exception (which yields a non-zero interpreter exit status). -/
inductive Outcome : Type where
  | exited (code : Nat)
  | crashed
deriving DecidableEq

/-- Result of one run of `main`: the event trace and the outcome. -/
structure MainResult : Type where
  trace : List Event
  outcome : Outcome
deriving DecidableEq

/-- Condition of cli.py line 63: `not any((kwargs["entropy"], kwargs["regex"]))`. -/
def noAnalysis (k : Kwargs) : Bool :=
  !(k.entropy || k.regex)

/-- Condition of cli.py line 66:
`not any((kwargs["pre_commit"], kwargs["repo_path"], kwargs["git_url"]))`. -/
def noSource (k : Kwargs) : Bool :=
  !(k.pre_commit || truthy k.repo_path || truthy k.git_url)

/-- Effective pattern list of the include-paths file (`[]` when the
option is absent: the compilation loop is skipped and `path_inclusions`
stays empty). -/
def inclusionsOf (k : Kwargs) : List String :=
  match k.include_paths with
  | none => []
  | some lines => effectivePatterns lines

/-- Effective pattern list of the exclude-paths file (`[]` when the
option is absent). -/
def exclusionsOf (k : Kwargs) : List String :=
  match k.exclude_paths with
  | none => []
  | some lines => effectivePatterns lines

/-- Trailing part of `main` after a scanner entry point returned
`output` (cli.py lines 120 to 129): cleanup or results-path print, then
`ctx.exit(1)` iff `output.get("found_issues", False)` is truthy, else
`ctx.exit(0)`. -/
def finish (t : List Event) (k : Kwargs) (output : Output) : MainResult :=
  let t2 : List Event :=
    if k.cleanup then t ++ [Event.cleanOutputs output]
    else
      match output.issues_path with
      | some p => if !p.isEmpty then t ++ [Event.printResultsSaved p] else t
      | none => t
  if output.found_issues.getD false then ⟨t2, Outcome.exited 1⟩
  else ⟨t2, Outcome.exited 0⟩

/-- Embedding of the body of `main` (cli.py lines 53 to 129), as a
function of the parsed options and the external environment.  Control
flow follows the source line by line: the two echoes, the two validation
checks, the `configure_regexes_from_args` call and its `ValueError`
handler, the empty-rules check, compilation of include then exclude
patterns (an invalid pattern raises uncaught `re.error`), the choice of
`find_staged` versus `find_strings`, and the epilogue `finish`. -/
def main (k : Kwargs) (env : Env) : MainResult :=
  let t0 : List Event := [Event.echoDir, Event.echoKwargs k]
  if noAnalysis k then
    ⟨t0 ++ [Event.errEcho ("No analysis requested.")], Outcome.exited 1⟩
  else if noSource k then
    ⟨t0 ++ [Event.errEcho ("You must specify one of --pre-commit, --repo-path, or git_url.")],
      Outcome.exited 1⟩
  else
    match env.configure_result with
    | ConfigureOutcome.valueError msg =>
      ⟨t0 ++ [Event.errEcho msg], Outcome.exited 1⟩
    | ConfigureOutcome.otherError =>
      ⟨t0, Outcome.crashed⟩
    | ConfigureOutcome.ok rules_regexes =>
      if k.regex && rules_regexes.isEmpty then
        ⟨t0 ++ [Event.errEcho ("Regex checks requested, but no regexes found.")],
          Outcome.exited 1⟩
      else
        let path_inclusions := inclusionsOf k
        if (path_inclusions.all env.re_compile) then
          let path_exclusions := exclusionsOf k
          if (path_exclusions.all env.re_compile) then
            if k.pre_commit then
              let a : FindStagedArgs :=
                ⟨k.repo_path, k.json, k.regex, k.entropy, rules_regexes,
                  path_inclusions, path_exclusions⟩
              finish (t0 ++ [Event.callFindStaged a]) k (env.find_staged a)
            else
              let a : FindStringsArgs :=
                ⟨k.git_url, k.since_commit, k.max_depth, k.json, k.regex, k.entropy,
                  rules_regexes, k.branch, k.repo_path, path_inclusions, path_exclusions⟩
              finish (t0 ++ [Event.callFindStrings a]) k (env.find_strings a)
          else ⟨t0, Outcome.crashed⟩
        else ⟨t0, Outcome.crashed⟩

/-- Recognizer of scanner entry-point invocation events. -/
def Event.isScanCall : Event → Bool
  | Event.callFindStaged _ => true
  | Event.callFindStrings _ => true
  | _ => false

/-- Recognizer of `find_strings` invocation events. -/
def Event.isFindStrings : Event → Bool
  | Event.callFindStrings _ => true
  | _ => false

/-- Recognizer of `find_staged` invocation events. -/
def Event.isFindStaged : Event → Bool
  | Event.callFindStaged _ => true
  | _ => false

/-- Whether a run invoked any scanner entry point. -/
def scanInvoked (r : MainResult) : Bool :=
  r.trace.any Event.isScanCall

/-- Whether a run invoked `find_strings`. -/
def findStringsInvoked (r : MainResult) : Bool :=
  r.trace.any Event.isFindStrings

/-- Whether a run invoked `find_staged`. -/
def findStagedInvoked (r : MainResult) : Bool :=
  r.trace.any Event.isFindStaged

/-- Whether the process terminated with a non-zero status: a non-zero
`ctx.exit` code, or death by uncaught exception. -/
def exitedNonZero (r : MainResult) : Bool :=
  match r.outcome with
  | Outcome.exited n => n != 0
  | Outcome.crashed => true

/-- Whether `configure_regexes_from_args` raised. -/
def configureRaised (env : Env) : Bool :=
  match env.configure_result with
  | ConfigureOutcome.ok _ => false
  | _ => true

/-- Rules mapping in effect after a non-raising
`configure_regexes_from_args` call (`[]` in the raising cases, which
never reach the rules check). -/
def effectiveRules (env : Env) : Rules :=
  match env.configure_result with
  | ConfigureOutcome.ok rules_regexes => rules_regexes
  | _ => []

/-- Condition of cli.py line 77: regex checks requested but the
effective rules mapping is empty. -/
def emptyRegexSet (k : Kwargs) (env : Env) : Bool :=
  k.regex && (effectiveRules env).isEmpty

/-- Whether any of the four validation failures of cli.py lines 63 to 79
occurs: no detector enabled, no source specified, a rule-configuration
failure, or an empty effective regex set with regex checks requested. -/
def validationFailed (k : Kwargs) (env : Env) : Bool :=
  noAnalysis k || noSource k || configureRaised env || emptyRegexSet k env

/-- Whether every effective include and exclude pattern compiles. -/
def compileOk (k : Kwargs) (env : Env) : Bool :=
  ((inclusionsOf k).all env.re_compile) && ((exclusionsOf k).all env.re_compile)

/-- Scanner output `main` obtains when validation and pattern
compilation succeed, as a function of the options and environment. -/
def outputOf (k : Kwargs) (env : Env) : Output :=
  if k.pre_commit then
    env.find_staged
      ⟨k.repo_path, k.json, k.regex, k.entropy, effectiveRules env,
        inclusionsOf k, exclusionsOf k⟩
  else
    env.find_strings
      ⟨k.git_url, k.since_commit, k.max_depth, k.json, k.regex, k.entropy,
        effectiveRules env, k.branch, k.repo_path, inclusionsOf k, exclusionsOf k⟩

/-- Truthiness of `output.get("found_issues", False)` for the scanner
output of a validation-passing run. -/
def foundIssuesOf (k : Kwargs) (env : Env) : Bool :=
  (outputOf k env).found_issues.getD false

/-- Sample rules mapping with one rule, standing for a non-empty result
of `configure_regexes_from_args`. -/
def sampleRules : Rules := [("slack_token", "xoxp-pattern")]

/-- Sample options: both detectors on, a git URL, nothing else set.
Field order: json, default_regexes, entropy, regex, since_commit,
max_depth, branch, include_paths, exclude_paths, repo_path, cleanup,
pre_commit, git_url. -/
def kUrl : Kwargs :=
  ⟨false, true, true, true, none, 1000000, none, none, none, none, false, false,
    some ("https://example.com/repo.git")⟩

/-- Sample options with both detectors disabled. -/
def kNoDetectors : Kwargs :=
  ⟨false, true, false, false, none, 1000000, none, none, none, none, false, false,
    some ("https://example.com/repo.git")⟩

/-- Sample options with no pre-commit flag, no repo path and no git URL. -/
def kNoSource : Kwargs :=
  ⟨false, true, true, true, none, 1000000, none, none, none, none, false, false, none⟩

/-- Sample options in pre-commit mode, with no git URL. -/
def kStaged : Kwargs :=
  ⟨false, true, true, true, none, 1000000, none, none, none, none, false, true, none⟩

/-- Sample options with an exclude-paths file holding the single invalid
pattern line with text of an unclosed character class. -/
def kBadExclude : Kwargs :=
  ⟨false, true, true, true, none, 1000000, none, none, some (["[\n"]), none, false, false,
    some ("https://example.com/repo.git")⟩

/-- Sample environment: configuration succeeds with one rule, every
pattern compiles, both scanners report no issues. -/
def envClean : Env :=
  ⟨ConfigureOutcome.ok sampleRules, fun _ => true,
    fun _ => ⟨some false, none⟩, fun _ => ⟨some false, none⟩⟩

/-- Sample environment in which `configure_regexes_from_args` returns an
empty rules mapping. -/
def envNoRules : Env :=
  ⟨ConfigureOutcome.ok [], fun _ => true,
    fun _ => ⟨some false, none⟩, fun _ => ⟨some false, none⟩⟩

/-- Sample environment in which `re.compile` rejects exactly the
unclosed-character-class pattern. -/
def envBadPattern : Env :=
  ⟨ConfigureOutcome.ok sampleRules, fun p => !(p == "["),
    fun _ => ⟨some false, none⟩, fun _ => ⟨some false, none⟩⟩

/-- Sample environment whose scanners return a mapping without the
`found_issues` key. -/
def envMissingFlag : Env :=
  ⟨ConfigureOutcome.ok sampleRules, fun _ => true,
    fun _ => ⟨none, none⟩, fun _ => ⟨none, none⟩⟩

/-- Events appended by the epilogue are cleanup and print events only,
so any event predicate ignoring those is decided by the prefix trace. -/
lemma finish_any (t : List Event) (k : Kwargs) (o : Output) (f : Event → Bool)
    (h1 : f (Event.cleanOutputs o) = false)
    (h2 : ∀ p, f (Event.printResultsSaved p) = false) :
    (finish t k o).trace.any f = t.any f := by
  unfold finish
  cases hC : k.cleanup
  · cases hip : o.issues_path with
    | none =>
      cases hF : o.found_issues.getD false <;> simp [hF]
    | some p =>
      cases hE : p.isEmpty <;> cases hF : o.found_issues.getD false <;>
        simp [hF, hE, h2]
  · cases hF : o.found_issues.getD false <;> simp [hF, h1]

/-- Scanner invocations in the full trace of the epilogue are exactly
those in its prefix. -/
lemma scanInvoked_finish (t : List Event) (k : Kwargs) (o : Output) :
    scanInvoked (finish t k o) = t.any Event.isScanCall :=
  finish_any t k o Event.isScanCall rfl fun _ => rfl

/-- Same as `scanInvoked_finish` for `find_strings` invocations. -/
lemma findStringsInvoked_finish (t : List Event) (k : Kwargs) (o : Output) :
    findStringsInvoked (finish t k o) = t.any Event.isFindStrings :=
  finish_any t k o Event.isFindStrings rfl fun _ => rfl

/-- Same as `scanInvoked_finish` for `find_staged` invocations. -/
lemma findStagedInvoked_finish (t : List Event) (k : Kwargs) (o : Output) :
    findStagedInvoked (finish t k o) = t.any Event.isFindStaged :=
  finish_any t k o Event.isFindStaged rfl fun _ => rfl

/-- Exit code of the epilogue is decided by the `found_issues` flag. -/
lemma finish_outcome (t : List Event) (k : Kwargs) (o : Output) :
    (finish t k o).outcome =
      if o.found_issues.getD false then Outcome.exited 1 else Outcome.exited 0 := by
  unfold finish
  cases hF : o.found_issues.getD false <;> simp [hF]

/-- Non-zero termination of the epilogue is exactly the truthiness of
the `found_issues` flag. -/
lemma exitedNonZero_finish (t : List Event) (k : Kwargs) (o : Output) :
    exitedNonZero (finish t k o) = o.found_issues.getD false := by
  unfold exitedNonZero
  rw [finish_outcome]
  cases o.found_issues.getD false <;> simp

/-- Trace of the epilogue extends its prefix trace. -/
lemma finish_trace (t : List Event) (k : Kwargs) (o : Output) :
    ∃ extra, (finish t k o).trace = t ++ extra := by
  unfold finish
  cases hC : k.cleanup with
  | true =>
    cases hF : o.found_issues.getD false <;>
      exact ⟨[Event.cleanOutputs o], by simp [hF]⟩
  | false =>
    cases hip : o.issues_path with
    | none =>
      cases hF : o.found_issues.getD false <;> exact ⟨[], by simp [hF]⟩
    | some p =>
      cases hE : p.isEmpty with
      | true =>
        cases hF : o.found_issues.getD false <;> exact ⟨[], by simp [hE, hF]⟩
      | false =>
        cases hF : o.found_issues.getD false <;>
          exact ⟨[Event.printResultsSaved p], by simp [hE, hF]⟩

/-- Reduction of `main` when both validation checks pass, configuration
succeeds and all effective patterns compile: the run is the epilogue of
the selected scanner call. -/
lemma main_success (k : Kwargs) (env : Env) (rules : Rules)
    (hA : noAnalysis k = false) (hS : noSource k = false)
    (hc : env.configure_result = ConfigureOutcome.ok rules)
    (hRE : (k.regex && rules.isEmpty) = false)
    (hI : (inclusionsOf k).all env.re_compile = true)
    (hX : (exclusionsOf k).all env.re_compile = true) :
    main k env =
      if k.pre_commit then
        finish [Event.echoDir, Event.echoKwargs k,
            Event.callFindStaged ⟨k.repo_path, k.json, k.regex, k.entropy, rules,
              inclusionsOf k, exclusionsOf k⟩] k
          (env.find_staged ⟨k.repo_path, k.json, k.regex, k.entropy, rules,
            inclusionsOf k, exclusionsOf k⟩)
      else
        finish [Event.echoDir, Event.echoKwargs k,
            Event.callFindStrings ⟨k.git_url, k.since_commit, k.max_depth, k.json,
              k.regex, k.entropy, rules, k.branch, k.repo_path,
              inclusionsOf k, exclusionsOf k⟩] k
          (env.find_strings ⟨k.git_url, k.since_commit, k.max_depth, k.json,
            k.regex, k.entropy, rules, k.branch, k.repo_path,
            inclusionsOf k, exclusionsOf k⟩) := by
  cases hP : k.pre_commit <;> simp [main, hA, hS, hc, hRE, hI, hX, hP]

/-- Components of a passing validation. -/
lemma validation_components (k : Kwargs) (env : Env)
    (hV : validationFailed k env = false) :
    noAnalysis k = false ∧ noSource k = false ∧
    configureRaised env = false ∧ emptyRegexSet k env = false := by
  unfold validationFailed at hV
  refine ⟨?_, ?_, ?_, ?_⟩ <;>
    · cases hA : noAnalysis k <;> cases hS : noSource k <;>
        cases hcr : configureRaised env <;> cases hre : emptyRegexSet k env <;>
        rw [hA, hS, hcr, hre] at hV <;> first | rfl | exact absurd hV (by decide)

/-- First two trace entries of the epilogue of a trace with at least two
entries. -/
lemma finish_take_two (a b : Event) (t : List Event) (k : Kwargs) (o : Output) :
    (finish (a :: b :: t) k o).trace.take 2 = [a, b] := by
  obtain ⟨e, he⟩ := finish_trace (a :: b :: t) k o
  rw [he]
  rfl

/-- C1: with both the entropy and regex detectors disabled, `main`
reports "No analysis requested." and exits with status 1, and no
scanner entry point (`find_strings` or `find_staged`) is invoked,
whatever the remaining options and the environment are. -/
theorem c1_no_analysis_exit (k : Kwargs) (env : Env)
    (hE : k.entropy = false) (hR : k.regex = false) :
    Event.errEcho ("No analysis requested.") ∈ (main k env).trace ∧
    (main k env).outcome = Outcome.exited 1 ∧
    scanInvoked (main k env) = false := by
  have hA : noAnalysis k = true := by simp [noAnalysis, hE, hR]
  simp [main, hA, scanInvoked, Event.isScanCall]

/-- Witness for C1 at concrete input. -/
theorem c1_no_analysis_exit_witness :
    kNoDetectors.entropy = false ∧ kNoDetectors.regex = false ∧
    (Event.errEcho ("No analysis requested.") ∈ (main kNoDetectors envClean).trace ∧
      (main kNoDetectors envClean).outcome = Outcome.exited 1 ∧
      scanInvoked (main kNoDetectors envClean) = false) :=
  ⟨by decide, by decide, c1_no_analysis_exit kNoDetectors envClean (by decide) (by decide)⟩

/-- C2: with none of the pre-commit flag, a (truthy) local repository
path, or a (truthy) git URL supplied, `main` exits with status 1 and no
scanner entry point is invoked, whatever the remaining options and the
environment are. -/
theorem c2_no_source_exit (k : Kwargs) (env : Env)
    (hP : k.pre_commit = false) (hRP : truthy k.repo_path = false)
    (hGU : truthy k.git_url = false) :
    (main k env).outcome = Outcome.exited 1 ∧
    scanInvoked (main k env) = false := by
  have hS : noSource k = true := by simp [noSource, hP, hRP, hGU]
  cases hA : noAnalysis k <;>
    simp [main, hA, hS, scanInvoked, Event.isScanCall]

/-- Witness for C2 at concrete input. -/
theorem c2_no_source_exit_witness :
    kNoSource.pre_commit = false ∧ truthy kNoSource.repo_path = false ∧
    truthy kNoSource.git_url = false ∧
    ((main kNoSource envClean).outcome = Outcome.exited 1 ∧
      scanInvoked (main kNoSource envClean) = false) :=
  ⟨by decide, by decide, by decide,
    c2_no_source_exit kNoSource envClean (by decide) (by decide) (by decide)⟩

/-- C3: with regex checks enabled and an empty effective rule set
returned by `configure_regexes_from_args`, `main` exits with status 1
and no scanner entry point is invoked. -/
theorem c3_empty_rules_exit (k : Kwargs) (env : Env)
    (hR : k.regex = true)
    (hc : env.configure_result = ConfigureOutcome.ok []) :
    (main k env).outcome = Outcome.exited 1 ∧
    scanInvoked (main k env) = false := by
  have hA : noAnalysis k = false := by simp [noAnalysis, hR]
  cases hS : noSource k <;>
    simp [main, hA, hS, hc, hR, scanInvoked, Event.isScanCall]

/-- Witness for C3 at concrete input. -/
theorem c3_empty_rules_exit_witness :
    kUrl.regex = true ∧
    envNoRules.configure_result = ConfigureOutcome.ok [] ∧
    ((main kUrl envNoRules).outcome = Outcome.exited 1 ∧
      scanInvoked (main kUrl envNoRules) = false) :=
  ⟨by decide, rfl, c3_empty_rules_exit kUrl envNoRules (by decide) rfl⟩

/-- C4: any pattern-compilation failure — a raising
`configure_regexes_from_args` call (which, per the spec, is where an
invalid rules-file regex surfaces; `tartufo/config.py` is not among the
given sources), or an effective include-paths or exclude-paths pattern
rejected by `re.compile` — makes the process fail (non-zero exit or
uncaught exception) with no scanner entry point ever invoked. -/
theorem c4_compile_failure_fail_fast (k : Kwargs) (env : Env)
    (h : configureRaised env = true ∨
      (inclusionsOf k).all env.re_compile = false ∨
      (exclusionsOf k).all env.re_compile = false) :
    exitedNonZero (main k env) = true ∧
    scanInvoked (main k env) = false := by
  cases hA : noAnalysis k with
  | true => simp [main, hA, exitedNonZero, scanInvoked, Event.isScanCall]
  | false =>
    cases hS : noSource k with
    | true => simp [main, hA, hS, exitedNonZero, scanInvoked, Event.isScanCall]
    | false =>
      cases hc : env.configure_result with
      | valueError m =>
        simp [main, hA, hS, hc, exitedNonZero, scanInvoked, Event.isScanCall]
      | otherError =>
        simp [main, hA, hS, hc, exitedNonZero, scanInvoked, Event.isScanCall]
      | ok rules =>
        have h2 : (inclusionsOf k).all env.re_compile = false ∨
            (exclusionsOf k).all env.re_compile = false := by
          rcases h with h | h | h
          · simp [configureRaised, hc] at h
          · exact Or.inl h
          · exact Or.inr h
        cases hRE : (k.regex && rules.isEmpty) with
        | true =>
          simp [main, hA, hS, hc, hRE, exitedNonZero, scanInvoked, Event.isScanCall]
        | false =>
          cases hI : (inclusionsOf k).all env.re_compile with
          | false =>
            simp [main, hA, hS, hc, hRE, hI, exitedNonZero, scanInvoked,
              Event.isScanCall]
          | true =>
            have hX : (exclusionsOf k).all env.re_compile = false := by
              rcases h2 with h2 | h2
              · rw [h2] at hI
                exact absurd hI (by decide)
              · exact h2
            simp [main, hA, hS, hc, hRE, hI, hX, exitedNonZero, scanInvoked,
              Event.isScanCall]

/-- Witness for C4 at concrete input: an exclude-paths file whose single
pattern line does not compile. -/
theorem c4_compile_failure_fail_fast_witness :
    (exclusionsOf kBadExclude).all envBadPattern.re_compile = false ∧
    (exitedNonZero (main kBadExclude envBadPattern) = true ∧
      scanInvoked (main kBadExclude envBadPattern) = false) :=
  ⟨by decide,
    c4_compile_failure_fail_fast kBadExclude envBadPattern (Or.inr (Or.inr (by decide)))⟩

/-- C5: in a pattern source, a line that is blank after trailing-character
removal and left-stripping, or whose processed form starts with `#`,
contributes no compiled pattern; and every surviving processed line
occurs exactly once among the compiled patterns, so duplicate lines
produce exactly one compiled pattern each. -/
theorem c5_skip_and_dedup (lines : List String) :
    (∀ l ∈ lines, (processLine l = "" ∨ startsWithHash (processLine l) = true) →
      processLine l ∉ effectivePatterns lines) ∧
    (∀ l ∈ lines, processLine l ≠ "" → startsWithHash (processLine l) = false →
      (effectivePatterns lines).count (processLine l) = 1) := by
  constructor
  · intro l hl h hmem
    unfold effectivePatterns at hmem
    rcases List.mem_filter.mp hmem with ⟨hmemd, hp⟩
    rw [Bool.and_eq_true] at hp
    rcases h with h | h
    · rw [h] at hp
      exact absurd hp.1 (by decide)
    · rw [h] at hp
      exact absurd hp.2 (by decide)
  · intro l hl h1 h2
    have hie : (processLine l).isEmpty = false := by
      cases hp : (processLine l).isEmpty with
      | false => rfl
      | true => exact absurd ((String.isEmpty_iff _).mp hp) h1
    have hmem : processLine l ∈ effectivePatterns lines := by
      unfold effectivePatterns
      apply List.mem_filter.mpr
      refine ⟨List.mem_dedup.mpr (List.mem_map_of_mem processLine hl), ?_⟩
      rw [Bool.and_eq_true]
      exact ⟨by rw [hie]; rfl, by rw [h2]; rfl⟩
    have hnd : (effectivePatterns lines).Nodup := by
      unfold effectivePatterns
      exact List.Nodup.filter _ (List.nodup_dedup _)
    exact List.count_eq_one_of_mem hnd hmem

/-- Witness for C5 at concrete inputs: a comment line contributes no
pattern, and a duplicated line contributes exactly one. -/
theorem c5_skip_and_dedup_witness :
    processLine ("# note\n") ∉ effectivePatterns ["# note\n", "a.txt\n"] ∧
    (effectivePatterns ["a.txt\n", "a.txt\n"]).count (processLine ("a.txt\n")) = 1 :=
  ⟨(c5_skip_and_dedup ["# note\n", "a.txt\n"]).1 ("# note\n") (by decide)
      (Or.inr (by decide)),
    (c5_skip_and_dedup ["a.txt\n", "a.txt\n"]).2 ("a.txt\n") (by decide)
      (by decide) (by decide)⟩

/-- C6 counterexample: with a non-compiling exclude-paths pattern the
process dies on an uncaught `re.error` and terminates with a non-zero
status, although no issue was found and none of the four validation
failures named by the claim (no detector, no source, empty regex set,
rule-configuration failure) occurred. -/
theorem c6_counterexample_bad_pattern :
    exitedNonZero (main kBadExclude envBadPattern) = true ∧
    validationFailed kBadExclude envBadPattern = false ∧
    foundIssuesOf kBadExclude envBadPattern = false := by
  decide

/-- C6 (amended): the process terminates with a non-zero status exactly
when a validation failure occurred (no detector enabled, no source
specified, a rule-configuration failure, or an empty effective regex
set with regex checks requested), or an effective include/exclude
pattern failed to compile (uncaught `re.error`), or the scan ran and
reported `found_issues`; it exits with status 0 otherwise. -/
theorem c6_exit_status_iff (k : Kwargs) (env : Env) :
    exitedNonZero (main k env) =
      (validationFailed k env || !compileOk k env || foundIssuesOf k env) := by
  cases hA : noAnalysis k with
  | true => simp [main, hA, exitedNonZero, validationFailed]
  | false =>
    cases hS : noSource k with
    | true => simp [main, hA, hS, exitedNonZero, validationFailed]
    | false =>
      cases hc : env.configure_result with
      | valueError m =>
        simp [main, hA, hS, hc, exitedNonZero, validationFailed, configureRaised]
      | otherError =>
        simp [main, hA, hS, hc, exitedNonZero, validationFailed, configureRaised]
      | ok rules =>
        cases hRE : (k.regex && rules.isEmpty) with
        | true =>
          have hREe : emptyRegexSet k env = true := by
            simpa [emptyRegexSet, effectiveRules, hc] using hRE
          simp [main, hA, hS, hc, hRE, exitedNonZero, validationFailed, hREe]
        | false =>
          have hREe : emptyRegexSet k env = false := by
            simpa [emptyRegexSet, effectiveRules, hc] using hRE
          cases hI : (inclusionsOf k).all env.re_compile with
          | false =>
            have hCO : compileOk k env = false := by simp [compileOk, hI]
            simp [main, hA, hS, hc, hRE, hI, exitedNonZero, validationFailed,
              configureRaised, hREe, hCO]
          | true =>
            cases hX : (exclusionsOf k).all env.re_compile with
            | false =>
              have hCO : compileOk k env = false := by simp [compileOk, hI, hX]
              simp [main, hA, hS, hc, hRE, hI, hX, exitedNonZero, validationFailed,
                configureRaised, hREe, hCO]
            | true =>
              have hCO : compileOk k env = true := by simp [compileOk, hI, hX]
              cases hP : k.pre_commit <;>
                simp [main, hA, hS, hc, hRE, hI, hX, hP, exitedNonZero_finish,
                  validationFailed, configureRaised, hREe, hCO, foundIssuesOf,
                  outputOf, effectiveRules]

/-- C7: with the pre-commit flag set, `main` never invokes the history
scanner `find_strings`; the source check passes without a git URL; and
when validation and pattern compilation succeed, the staged-change
scanner `find_staged` is invoked. -/
theorem c7_pre_commit_drives_staged (k : Kwargs) (env : Env)
    (hP : k.pre_commit = true) :
    findStringsInvoked (main k env) = false ∧
    noSource k = false ∧
    (validationFailed k env = false → compileOk k env = true →
      findStagedInvoked (main k env) = true) := by
  have hS : noSource k = false := by simp [noSource, hP]
  refine ⟨?_, hS, ?_⟩
  · cases hA : noAnalysis k with
    | true => simp [main, hA, findStringsInvoked, Event.isFindStrings]
    | false =>
      cases hc : env.configure_result with
      | valueError m =>
        simp [main, hA, hS, hc, findStringsInvoked, Event.isFindStrings]
      | otherError =>
        simp [main, hA, hS, hc, findStringsInvoked, Event.isFindStrings]
      | ok rules =>
        cases hRE : (k.regex && rules.isEmpty) with
        | true =>
          simp [main, hA, hS, hc, hRE, findStringsInvoked, Event.isFindStrings]
        | false =>
          cases hI : (inclusionsOf k).all env.re_compile with
          | false =>
            simp [main, hA, hS, hc, hRE, hI, findStringsInvoked, Event.isFindStrings]
          | true =>
            cases hX : (exclusionsOf k).all env.re_compile with
            | false =>
              simp [main, hA, hS, hc, hRE, hI, hX, findStringsInvoked,
                Event.isFindStrings]
            | true =>
              rw [main_success k env rules hA hS hc hRE hI hX, hP]
              simp [findStringsInvoked_finish, Event.isFindStrings]
  · intro hV hC
    obtain ⟨hA, _, hcr, hre⟩ := validation_components k env hV
    unfold compileOk at hC
    rw [Bool.and_eq_true] at hC
    obtain ⟨hI, hX⟩ := hC
    cases hc : env.configure_result with
    | valueError m => simp [configureRaised, hc] at hcr
    | otherError => simp [configureRaised, hc] at hcr
    | ok rules =>
      have hRE : (k.regex && rules.isEmpty) = false := by
        simpa [emptyRegexSet, effectiveRules, hc] using hre
      rw [main_success k env rules hA hS hc hRE hI hX, hP]
      simp [findStagedInvoked_finish, Event.isFindStaged]

/-- Witness for C7 at concrete input: pre-commit mode with no git URL. -/
theorem c7_pre_commit_drives_staged_witness :
    kStaged.pre_commit = true ∧
    findStringsInvoked (main kStaged envClean) = false ∧
    findStagedInvoked (main kStaged envClean) = true :=
  ⟨by decide, (c7_pre_commit_drives_staged kStaged envClean (by decide)).1,
    (c7_pre_commit_drives_staged kStaged envClean (by decide)).2.2
      (by decide) (by decide)⟩

/-- C8: line processing removes the final character of a line
unconditionally — for any line of the shape `s ++ [c]` the processed
pattern is the left-stripped `s`, whatever the final character `c` is —
and hence in a pattern file whose last line lacks a trailing newline the
compiled pattern is that line with its genuine last character dropped. -/
theorem c8_unconditional_last_char_drop :
    (∀ (s : String) (c : Char),
      processLine (String.mk (s.data ++ [c])) = pyLstrip s) ∧
    effectivePatterns ["keep.txt\n", "last.txt"] = ["keep.txt", "last.tx"] := by
  constructor
  · intro s c
    unfold processLine pyDropLast
    rw [List.dropLast_concat]
  · decide

/-- C9: when the scan runs and its result mapping lacks the
`found_issues` key, the process exits with status 0. -/
theorem c9_missing_flag_exits_zero (k : Kwargs) (env : Env)
    (hV : validationFailed k env = false) (hC : compileOk k env = true)
    (hF : (outputOf k env).found_issues = none) :
    (main k env).outcome = Outcome.exited 0 := by
  obtain ⟨hA, hS, hcr, hre⟩ := validation_components k env hV
  unfold compileOk at hC
  rw [Bool.and_eq_true] at hC
  obtain ⟨hI, hX⟩ := hC
  cases hc : env.configure_result with
  | valueError m => simp [configureRaised, hc] at hcr
  | otherError => simp [configureRaised, hc] at hcr
  | ok rules =>
    have hRE : (k.regex && rules.isEmpty) = false := by
      simpa [emptyRegexSet, effectiveRules, hc] using hre
    rw [main_success k env rules hA hS hc hRE hI hX]
    cases hP : k.pre_commit with
    | true =>
      have hF2 : (env.find_staged ⟨k.repo_path, k.json, k.regex, k.entropy, rules,
          inclusionsOf k, exclusionsOf k⟩).found_issues = none := by
        simpa [outputOf, hP, effectiveRules, hc] using hF
      simp [finish_outcome, hF2]
    | false =>
      have hF2 : (env.find_strings ⟨k.git_url, k.since_commit, k.max_depth, k.json,
          k.regex, k.entropy, rules, k.branch, k.repo_path,
          inclusionsOf k, exclusionsOf k⟩).found_issues = none := by
        simpa [outputOf, hP, effectiveRules, hc] using hF
      simp [finish_outcome, hF2]

/-- Witness for C9 at concrete input: a scanner output without the
`found_issues` key. -/
theorem c9_missing_flag_exits_zero_witness :
    validationFailed kUrl envMissingFlag = false ∧
    compileOk kUrl envMissingFlag = true ∧
    (outputOf kUrl envMissingFlag).found_issues = none ∧
    (main kUrl envMissingFlag).outcome = Outcome.exited 0 :=
  ⟨by decide, by decide, by decide,
    c9_missing_flag_exits_zero kUrl envMissingFlag (by decide) (by decide) (by decide)⟩

/-- C10: on every invocation the first two observable events of the run
are the echo of `dir(ctx)` and the echo of the full parsed option set,
before any validation, error report or scanner call. -/
theorem c10_echoes_come_first (k : Kwargs) (env : Env) :
    (main k env).trace.take 2 = [Event.echoDir, Event.echoKwargs k] := by
  cases hA : noAnalysis k with
  | true => simp [main, hA]
  | false =>
    cases hS : noSource k with
    | true => simp [main, hA, hS]
    | false =>
      cases hc : env.configure_result with
      | valueError m => simp [main, hA, hS, hc]
      | otherError => simp [main, hA, hS, hc]
      | ok rules =>
        cases hRE : (k.regex && rules.isEmpty) with
        | true => simp [main, hA, hS, hc, hRE]
        | false =>
          cases hI : (inclusionsOf k).all env.re_compile with
          | false => simp [main, hA, hS, hc, hRE, hI]
          | true =>
            cases hX : (exclusionsOf k).all env.re_compile with
            | false => simp [main, hA, hS, hc, hRE, hI, hX]
            | true =>
              rw [main_success k env rules hA hS hc hRE hI hX]
              cases hP : k.pre_commit <;> simp [hP, finish_take_two]

end Tartufo
